import Mathlib

/-!
Shallow embedding of the SSH MCP server core (hohollala/SSH_MCP):
`src/config.ts`, `src/errors.ts`, `src/connection-manager.ts` (the
`SSHConnectionManager` class and the `EnvParser` class), and the file-operation
adapters of `src/tools.ts`.

Strings of the source language are modelled as `List Char` (sequences of code
units), so that every definition is executable and decidable on concrete
inputs.  Asynchronous transport callbacks (`ready` / `error` / `timeout`,
stream `data` / `close` / `error`) are modelled by passing the event outcome
explicitly to the function that installs the handlers, following the
one-shot-settlement semantics of a JS `Promise`: the first settling event
determines the result and later events are ignored.
-/

/-- Character-list model of a JS string. -/
abbrev Str := List Char

/-- JS truthiness of an optional string field (`if (x)`): `undefined` and the
empty string are falsy. -/
def optStrTruthy : Option Str → Bool
  | none => false
  | some s => !s.isEmpty

/-- JS truthiness of an optional boolean field (`if (x)`). -/
def optBoolTruthy : Option Bool → Bool
  | none => false
  | some b => b

/-! ## `src/errors.ts` -/

/-- `enum ErrorCode` of `src/errors.ts`.  Note there is no capacity /
resource-exhaustion member in the source taxonomy. -/
inductive ErrorCode where
  | CONNECTION_FAILED
  | CONNECTION_TIMEOUT
  | AUTHENTICATION_FAILED
  | CONNECTION_NOT_FOUND
  | COMMAND_TIMEOUT
  | COMMAND_FAILED
  | INVALID_COMMAND
  | FILE_NOT_FOUND
  | FILE_ACCESS_DENIED
  | FILE_OPERATION_FAILED
  | INVALID_CONFIG
  | MISSING_CONFIG
  | INVALID_REQUEST
  | METHOD_NOT_FOUND
  | INVALID_PARAMS
  | INTERNAL_ERROR
  | NOT_IMPLEMENTED
deriving DecidableEq, Repr

/-- `SSHMCPServerError` as produced by `ErrorFactory.createError`: a typed
error carrying its taxonomy code (messages and detail payloads are diagnostic
strings built from the arguments; the code is the stable part). -/
structure SSHError where
  code : ErrorCode
deriving DecidableEq, Repr

namespace ErrorFactory

/-- `ErrorFactory.connectionFailed(host, port, details?)`. -/
def connectionFailed (_host : Str) (_port : Nat) : SSHError :=
  ⟨ErrorCode.CONNECTION_FAILED⟩

/-- `ErrorFactory.connectionTimeout(host, port, timeout)`. -/
def connectionTimeout (_host : Str) (_port : Nat) (_timeout : Nat) : SSHError :=
  ⟨ErrorCode.CONNECTION_TIMEOUT⟩

/-- `ErrorFactory.authenticationFailed(host, username, details?)` — defined in
`src/errors.ts` but never invoked by the connection manager. -/
def authenticationFailed (_host : Str) (_username : Str) : SSHError :=
  ⟨ErrorCode.AUTHENTICATION_FAILED⟩

/-- `ErrorFactory.connectionNotFound(connectionId)`. -/
def connectionNotFound (_connectionId : Str) : SSHError :=
  ⟨ErrorCode.CONNECTION_NOT_FOUND⟩

/-- `ErrorFactory.commandTimeout(command, timeout)` — defined in
`src/errors.ts` but never invoked by the connection manager. -/
def commandTimeout (_command : Str) (_timeout : Nat) : SSHError :=
  ⟨ErrorCode.COMMAND_TIMEOUT⟩

/-- `ErrorFactory.commandFailed(command, exitCode, stderr)`. -/
def commandFailed (_command : Str) (_exitCode : Int) (_stderr : Str) : SSHError :=
  ⟨ErrorCode.COMMAND_FAILED⟩

/-- `ErrorFactory.fileNotFound(path)`. -/
def fileNotFound (_path : Str) : SSHError :=
  ⟨ErrorCode.FILE_NOT_FOUND⟩

/-- `ErrorFactory.fileOperationFailed(operation, path, details?)`. -/
def fileOperationFailed (_operation : Str) (_path : Str) (_stderr : Str) : SSHError :=
  ⟨ErrorCode.FILE_OPERATION_FAILED⟩

end ErrorFactory

/-! ## `src/types.ts` shapes used by the manager -/

/-- `interface SSHAuthConfig` of `src/types.ts`: all fields optional. -/
structure SSHAuthConfig where
  password : Option Str
  privateKey : Option Str
  passphrase : Option Str
  agent : Option Bool
deriving DecidableEq, Repr

/-- The auth input with no fields set. -/
def emptyAuth : SSHAuthConfig := ⟨none, none, none, none⟩

/-- Whether any authentication material is (truthily) present:
password, private-key material, or the agent flag. -/
def hasAuthMaterial (auth : SSHAuthConfig) : Bool :=
  optStrTruthy auth.password || optStrTruthy auth.privateKey || optBoolTruthy auth.agent

/-! ## The transport connect configuration (`connectConfig` object built in
`SSHConnectionManager.connect`, `src/connection-manager.ts` lines 46–65) -/

/-- The authentication-relevant fields of the `connectConfig` object handed to
`client.connect`.  `agent` holds the value of `process.env.SSH_AUTH_SOCK`
(itself possibly undefined) when the agent branch is taken. -/
structure ConnectConfig where
  password : Option Str
  privateKey : Option Str
  passphrase : Option Str
  agent : Option (Option Str)
deriving DecidableEq, Repr

/-- `src/connection-manager.ts` lines 56–65: the `if / else if / else if`
chain that adds exactly one authentication method to `connectConfig`.
`env` is `process.env.SSH_AUTH_SOCK`. -/
def buildConnectConfig (auth : SSHAuthConfig) (env : Option Str) : ConnectConfig :=
  if optStrTruthy auth.password then
    { password := auth.password, privateKey := none, passphrase := none, agent := none }
  else if optStrTruthy auth.privateKey then
    { password := none, privateKey := auth.privateKey,
      passphrase := if optStrTruthy auth.passphrase then auth.passphrase else none,
      agent := none }
  else if optBoolTruthy auth.agent then
    { password := none, privateKey := none, passphrase := none, agent := some env }
  else
    { password := none, privateKey := none, passphrase := none, agent := none }

/-- Number of authentication methods present in a connect configuration. -/
def configuredMethodCount (cfg : ConnectConfig) : Nat :=
  (if cfg.password.isSome then 1 else 0) +
  (if cfg.privateKey.isSome then 1 else 0) +
  (if cfg.agent.isSome then 1 else 0)

/-! ## `src/config.ts` -/

/-- `ServerConfig` of `src/config.ts` with its hard-coded / default-env
values (`SSH_MCP_TIMEOUT` default `'30'`, `SSH_MCP_MAX_CONNECTIONS` default
`'10'`).  `maxConnections` is parsed and logged by the server but never read
by `SSHConnectionManager`. -/
structure ServerConfig where
  debug : Bool
  defaultTimeout : Nat
  maxConnections : Nat
  defaultSSHPort : Nat
  connectionRetryAttempts : Nat
  connectionRetryDelay : Nat
deriving DecidableEq, Repr

/-- The `config` value exported by `src/config.ts` under default environment. -/
def config : ServerConfig :=
  { debug := false, defaultTimeout := 30, maxConnections := 10,
    defaultSSHPort := 22, connectionRetryAttempts := 3, connectionRetryDelay := 1000 }

/-! ## Decimal rendering of numbers (JS template-literal `${port}`) -/

/-- Fuel-driven decimal digits accumulator; `fuel ≥ n` suffices. -/
def natToDecAux : Nat → Nat → Str
  | 0, _ => []
  | fuel + 1, n =>
    if n < 10 then [Nat.digitChar n]
    else natToDecAux fuel (n / 10) ++ [Nat.digitChar (n % 10)]

/-- Decimal rendering of a natural number, as JS string interpolation does. -/
def natToDec (n : Nat) : Str := natToDecAux (n + 1) n

/-! ## `SSHConnectionManager` (`src/connection-manager.ts`) -/

/-- `interface SSHConnection` of `src/types.ts`; `createdAt` / `lastUsed`
are clock readings (`new Date()`), modelled as naturals. -/
structure ConnInfo where
  id : Str
  host : Str
  port : Nat
  username : Str
  isConnected : Bool
  createdAt : Nat
  lastUsed : Nat
deriving DecidableEq, Repr

/-- One registry slot: `{ connection: Client; info: SSHConnection }`.  The
`Client` object is modelled by its allocation number, which identifies the
physical transport session. -/
structure ConnEntry where
  connection : Nat
  info : ConnInfo
deriving DecidableEq, Repr

/-- The manager's state: the `connections` map (JS `Map`: association list in
insertion order, unique keys) plus the allocation counter for `new Client()`
objects. -/
structure MgrState where
  connections : List (Str × ConnEntry)
  nextClient : Nat
deriving DecidableEq, Repr

/-- The manager's initial state: empty map, no clients allocated yet. -/
def emptyMgr : MgrState := { connections := [], nextClient := 0 }

/-- `Map.prototype.get`. -/
def mapGet (m : List (Str × α)) (k : Str) : Option α :=
  match m with
  | [] => none
  | (k', v) :: rest => if k' = k then some v else mapGet rest k

/-- `Map.prototype.set`: replaces in place if the key exists, else appends. -/
def mapSet (m : List (Str × α)) (k : Str) (v : α) : List (Str × α) :=
  match m with
  | [] => [(k, v)]
  | (k', v') :: rest => if k' = k then (k, v) :: rest else (k', v') :: mapSet rest k v

/-- `Map.prototype.delete`. -/
def mapDelete (m : List (Str × α)) (k : Str) : List (Str × α) :=
  match m with
  | [] => []
  | (k', v') :: rest => if k' = k then rest else (k', v') :: mapDelete rest k

/-- `generateConnectionId(host, port, username)` of
`src/connection-manager.ts` lines 184–186: `` `${username}@${host}:${port}` ``.
No timestamp and no random component. -/
def generateConnectionId (host : Str) (port : Nat) (username : Str) : Str :=
  username ++ '@' :: host ++ ':' :: natToDec port

/-- `generateConnectionId` of the duplicate manager variant shipped in the
repository (unnamed file, lines 234–238):
`` `${username}@${host}:${port}_${timestamp}_${random}` `` where `timestamp`
is `Date.now()` and `random` is a six-character base-36 fragment of
`Math.random()`, both passed here explicitly. -/
def generateConnectionIdV2 (host : Str) (port : Nat) (username : Str)
    (timestamp : Nat) (random : Str) : Str :=
  generateConnectionId host port username ++ '_' :: natToDec timestamp ++ '_' :: random

/-- `removeConnection(connectionId)`: deletes the entry if present (it also
flips the shared `info.isConnected` flag to false, observable only through
aliases of the removed entry). -/
def removeConnection (st : MgrState) (connectionId : Str) : MgrState :=
  match mapGet st.connections connectionId with
  | none => st
  | some _ => { st with connections := mapDelete st.connections connectionId }

/-- Which transport event settles the connect promise: `ready`, `error`, or
`timeout` (one-shot settlement; later events are ignored by the promise). -/
inductive ConnectOutcome where
  | ready
  | fails (msg : Str)
  | timedOut
deriving DecidableEq, Repr

/-- Result of one `connect` call: the registry state after the call, the
settled value, whether `client.connect(connectConfig)` was invoked (i.e. a
network attempt was made), and the configuration handed to it. -/
structure ConnectOutput where
  state : MgrState
  result : Except SSHError ConnInfo
  transportConnectCalled : Bool
  transportConfig : Option ConnectConfig
deriving Repr

/-- The promise body of `connect` (`src/connection-manager.ts` lines 34–102):
allocates a `new Client()`, builds `connectConfig`, installs the handlers and
calls `client.connect`.  On `ready` the entry is inserted into the map and the
promise resolves; on `error` / `timeout` the promise rejects with the mapped
typed error and nothing is inserted.  (The argument `config.connectionTimeout`
passed to `connectionTimeout` is not a field `src/config.ts` defines; it is
diagnostic-only and dropped by the error embedding.) -/
def connectAttempt (st : MgrState) (host : Str) (port : Nat) (username : Str)
    (connectionId : Str) (auth : SSHAuthConfig) (env : Option Str)
    (outcome : ConnectOutcome) (now : Nat) : ConnectOutput :=
  let client := st.nextClient
  let cfg := buildConnectConfig auth env
  match outcome with
  | ConnectOutcome.ready =>
    let info : ConnInfo :=
      { id := connectionId, host := host, port := port, username := username,
        isConnected := true, createdAt := now, lastUsed := now }
    { state := { connections := mapSet st.connections connectionId ⟨client, info⟩,
                 nextClient := client + 1 },
      result := Except.ok info,
      transportConnectCalled := true, transportConfig := some cfg }
  | ConnectOutcome.fails _ =>
    { state := { st with nextClient := client + 1 },
      result := Except.error (ErrorFactory.connectionFailed host port),
      transportConnectCalled := true, transportConfig := some cfg }
  | ConnectOutcome.timedOut =>
    { state := { st with nextClient := client + 1 },
      result := Except.error (ErrorFactory.connectionTimeout host port 0),
      transportConnectCalled := true, transportConfig := some cfg }

/-- `connect(host, port, username, auth)` (`src/connection-manager.ts` lines
17–103).  First the reuse check: if the map already holds the generated
identifier with a connected entry, that entry's info is returned and no
transport work happens.  Otherwise the promise body `connectAttempt` runs. -/
def connectStep (st : MgrState) (host : Str) (port : Nat) (username : Str)
    (auth : SSHAuthConfig) (env : Option Str) (outcome : ConnectOutcome)
    (now : Nat) : ConnectOutput :=
  let connectionId := generateConnectionId host port username
  match mapGet st.connections connectionId with
  | some existing =>
    if existing.info.isConnected then
      { state := st, result := Except.ok existing.info,
        transportConnectCalled := false, transportConfig := none }
    else
      connectAttempt st host port username connectionId auth env outcome now
  | none => connectAttempt st host port username connectionId auth env outcome now

/-- `disconnect(connectionId)` (`src/connection-manager.ts` lines 105–117):
unknown identifier is a `CONNECTION_NOT_FOUND` rejection; otherwise `end()` is
signalled fire-and-forget and the entry is removed at once. -/
def disconnectStep (st : MgrState) (connectionId : Str) :
    MgrState × Except SSHError Unit :=
  match mapGet st.connections connectionId with
  | none => (st, Except.error (ErrorFactory.connectionNotFound connectionId))
  | some _ => (removeConnection st connectionId, Except.ok ())

/-- `listConnections()`: snapshot of the entries' public metadata. -/
def listConnections (st : MgrState) : List ConnInfo :=
  st.connections.map (fun p => p.2.info)

/-- `getConnection(connectionId)`. -/
def getConnection (st : MgrState) (connectionId : Str) : Option ConnInfo :=
  (mapGet st.connections connectionId).map (fun e => e.info)

/-! ## `executeCommand` (`src/connection-manager.ts` lines 119–173) -/

/-- `interface SSHCommand` of `src/types.ts` (the unused `env` record is
omitted).  `timeout` is carried on the shape but never read by
`executeCommand`. -/
structure SSHCommand where
  id : Str
  command : Str
  cwd : Option Str
  timeout : Option Nat
deriving DecidableEq, Repr

/-- `interface SSHCommandResult` of `src/types.ts`. -/
structure SSHCommandResult where
  id : Str
  exitCode : Int
  stdout : Str
  stderr : Str
  duration : Nat
deriving DecidableEq, Repr

/-- The normalization `code || 0` applied to the exit status delivered by the
stream `close` event (`null` / `undefined` modelled as `none`; `0` is falsy in
JS, so it also falls to the right operand, which is again `0`). -/
def jsOrZero : Option Int → Int
  | none => 0
  | some c => if c = 0 then 0 else c

/-- Events delivered by the execution channel's streams, in order. -/
inductive ExecEvent where
  | stdoutData (chunk : Str)
  | stderrData (chunk : Str)
  | closed (code : Option Int)
  | streamFailed (msg : Str)
deriving DecidableEq, Repr

/-- Outcome of `connection.exec`: the channel either fails to open (callback
`error`) or opens and delivers a finite trace of stream events. -/
inductive ChannelOutcome where
  | openFailed (msg : Str)
  | opened (events : List ExecEvent)
deriving DecidableEq, Repr

/-- The stream handlers of `executeCommand`: `data` chunks accumulate into
`stdout`, `stderr.data` chunks into `stderr`; the first `close` resolves with
the assembled `SSHCommandResult`; the first stream `error` rejects.  A trace
with neither settling event leaves the promise pending forever (`none`). -/
def runStream (cmd : SSHCommand) (duration : Nat) :
    List ExecEvent → Str → Str → Option (Except SSHError SSHCommandResult)
  | [], _, _ => none
  | ExecEvent.stdoutData chunk :: rest, out, errOut =>
      runStream cmd duration rest (out ++ chunk) errOut
  | ExecEvent.stderrData chunk :: rest, out, errOut =>
      runStream cmd duration rest out (errOut ++ chunk)
  | ExecEvent.closed code :: _, out, errOut =>
      some (Except.ok { id := cmd.id, exitCode := jsOrZero code,
                        stdout := out, stderr := errOut, duration := duration })
  | ExecEvent.streamFailed msg :: _, _, _ =>
      some (Except.error (ErrorFactory.commandFailed cmd.command (-1) msg))

/-- `executeCommand(connectionId, command)` (`src/connection-manager.ts` lines
119–173).  Registry checks first (unknown id, not-connected entry), then the
`exec` callback: channel-open failure rejects with `COMMAND_FAILED`; otherwise
the stream events decide.  `startTime` / `closeTime` are `Date.now()` at issue
and at the `close` event, giving `duration`; `lastUsed` is refreshed only in
the `close` handler.  There is no timer: `command.timeout` is never read. -/
def executeCommand (st : MgrState) (connectionId : Str) (cmd : SSHCommand)
    (outcome : ChannelOutcome) (startTime closeTime : Nat) :
    MgrState × Option (Except SSHError SSHCommandResult) :=
  match mapGet st.connections connectionId with
  | none => (st, some (Except.error (ErrorFactory.connectionNotFound connectionId)))
  | some conn =>
    if !conn.info.isConnected then
      (st, some (Except.error (ErrorFactory.connectionFailed conn.info.host conn.info.port)))
    else
      match outcome with
      | ChannelOutcome.openFailed msg =>
          (st, some (Except.error (ErrorFactory.commandFailed cmd.command (-1) msg)))
      | ChannelOutcome.opened events =>
          match runStream cmd (closeTime - startTime) events [] [] with
          | none => (st, none)
          | some (Except.ok res) =>
              let touched : ConnEntry :=
                ⟨conn.connection, { conn.info with lastUsed := closeTime }⟩
              ({ st with connections := mapSet st.connections connectionId touched },
               some (Except.ok res))
          | some (Except.error e) => (st, some (Except.error e))

/-- `SSHTools.executeSSHExecuteCommand` (`src/tools.ts` lines 319–331): fills
the `SSHCommand` shape (timeout defaulting to 60 seconds, id
`` `cmd_${Date.now()}` ``) and delegates to the manager. -/
def executeSSHExecuteCommand (st : MgrState) (connectionId : Str)
    (commandText : Str) (cwd : Option Str) (timeoutArg : Option Nat)
    (outcome : ChannelOutcome) (startTime closeTime : Nat) :
    MgrState × Option (Except SSHError SSHCommandResult) :=
  executeCommand st connectionId
    { id := 'c' :: 'm' :: 'd' :: '_' :: natToDec startTime,
      command := commandText, cwd := cwd,
      timeout := some (timeoutArg.getD 60) }
    outcome startTime closeTime

/-! ## `EnvParser.expandVariables` (`src/connection-manager.ts` bundle,
`expandVariables` at lines 287–309, `expandObjectVariables` at lines 314–336)

The source performs `input.replace(/\$\{([^}]+)\}/g, cb)`: a left-to-right,
non-overlapping scan.  At each `${`, the capture `[^}]+` runs to the first
`}` and must be non-empty; on a match the callback result is inserted verbatim
(not re-scanned) and scanning resumes after the `}`; where no match starts the
character is copied and the scan advances by one.  The recursion is driven by
a fuel argument bounded by the input length, which the length of the scanned
remainder strictly dominates. -/

/-- Split a string at its first `}`: returns the (possibly empty) run of
non-`}` characters and the remainder after the `}`. -/
def splitAtBrace : Str → Option (Str × Str)
  | [] => none
  | c :: rest =>
    if c = '}' then some ([], rest)
    else (splitAtBrace rest).map (fun p => (c :: p.1, p.2))

/-- Whether a match of `/\$\{([^}]+)\}/` starts at the head of the string:
if so, the non-empty captured name and the remainder after the closing brace.
Where no match starts, the regex engine copies one character and advances. -/
def tokenSplit : Str → Option (Str × Str)
  | c1 :: c2 :: rest =>
    if c1 = '$' ∧ c2 = '{' then
      match splitAtBrace rest with
      | some (name, rest2) => if name.isEmpty then none else some (name, rest2)
      | none => none
    else none
  | _ => none

/-- The scanner of `expandVariables`, fuelled (any fuel ≥ the input length
gives the scan's value).  On a match `${name}`: an absent name keeps the
literal token, an empty value inserts nothing, any other value is inserted
verbatim (the callback result is not re-scanned). -/
def expandVarsAux (store : List (Str × Str)) : Nat → Str → Str
  | 0, s => s
  | _ + 1, [] => []
  | fuel + 1, c :: rest =>
    match tokenSplit (c :: rest) with
    | some (name, rest2) =>
      match mapGet store name with
      | none => '$' :: '{' :: name ++ '}' :: expandVarsAux store fuel rest2
      | some [] => expandVarsAux store fuel rest2
      | some v => v ++ expandVarsAux store fuel rest2
    | none => c :: expandVarsAux store fuel rest

/-- `EnvParser.expandVariables(input)`: when the store is not loaded the input
is returned unchanged (with a warning); otherwise the scan runs.  The function
never throws. -/
def expandVariables (loaded : Bool) (store : List (Str × Str)) (s : Str) : Str :=
  if loaded then expandVarsAux store s.length s else s

/-- Same scan shape, checking that every matched `${name}` token has a name
absent from the store (so the scan leaves it in place). -/
def allTokensUnresolvedAux (store : List (Str × Str)) : Nat → Str → Bool
  | 0, _ => true
  | _ + 1, [] => true
  | fuel + 1, c :: rest =>
    match tokenSplit (c :: rest) with
    | some (name, rest2) =>
      match mapGet store name with
      | none => allTokensUnresolvedAux store fuel rest2
      | some _ => false
    | none => allTokensUnresolvedAux store fuel rest

/-- Every `${name}` token the scanner would match in `s` has a name absent
from the store (in particular true when `s` has no token at all). -/
def allTokensUnresolved (store : List (Str × Str)) (s : Str) : Bool :=
  allTokensUnresolvedAux store s.length s

/-! ### `expandObjectVariables`: structural recursion over JSON-like values -/

mutual
/-- A JSON-like argument value as dispatched by `expandObjectVariables`:
strings, numbers, booleans, `null`, arrays and plain objects. -/
inductive JSValue where
  | str (s : Str)
  | num (n : Int)
  | bool (b : Bool)
  | null
  | arr (items : JSList)
  | obj (fields : JSFields)

/-- Array elements. -/
inductive JSList where
  | nil
  | cons (head : JSValue) (tail : JSList)

/-- Object entries (`Object.entries` order). -/
inductive JSFields where
  | nil
  | cons (key : Str) (val : JSValue) (tail : JSFields)
end

mutual
/-- `EnvParser.expandObjectVariables(obj)`: strings are expanded, other
primitives pass through, arrays map elementwise, objects map each value
(keys untouched). -/
def expandObjectVariables (loaded : Bool) (store : List (Str × Str)) :
    JSValue → JSValue
  | JSValue.str s => JSValue.str (expandVariables loaded store s)
  | JSValue.num n => JSValue.num n
  | JSValue.bool b => JSValue.bool b
  | JSValue.null => JSValue.null
  | JSValue.arr items => JSValue.arr (expandJSList loaded store items)
  | JSValue.obj fields => JSValue.obj (expandJSFields loaded store fields)

/-- `obj.map(item => this.expandObjectVariables(item))`. -/
def expandJSList (loaded : Bool) (store : List (Str × Str)) : JSList → JSList
  | JSList.nil => JSList.nil
  | JSList.cons h t =>
      JSList.cons (expandObjectVariables loaded store h) (expandJSList loaded store t)

/-- `for (const [key, value] of Object.entries(obj)) result[key] = ...`. -/
def expandJSFields (loaded : Bool) (store : List (Str × Str)) : JSFields → JSFields
  | JSFields.nil => JSFields.nil
  | JSFields.cons k v t =>
      JSFields.cons k (expandObjectVariables loaded store v) (expandJSFields loaded store t)
end

/-- The string payload of a `JSValue` leaf, if it is one. -/
def jsStrOf : JSValue → Option Str
  | JSValue.str s => some s
  | _ => none

/-! ## File operations (`src/tools.ts` lines 346–394) -/

/-- The single-quote character (code point 39), written via `Char.ofNat`. -/
def singleQuoteChar : Char := Char.ofNat 39

/-- `content.replace(/'/g, "'\"'\"'")` of `executeSSHWriteFile`: every
single quote becomes quote, double-quote, quote, double-quote, quote. -/
def escapeQuotes : Str → Str
  | [] => []
  | c :: rest =>
    if c = singleQuoteChar then
      singleQuoteChar :: '"' :: singleQuoteChar :: '"' :: singleQuoteChar :: escapeQuotes rest
    else c :: escapeQuotes rest

/-- The write command string `` `cat > "${path}" << 'EOF'\n${escapedContent}\nEOF` ``. -/
def buildWriteCommand (path content : Str) : Str :=
  ("cat > \"".data ++ path ++ "\" << 'EOF'\n".data) ++ escapeQuotes content ++ "\nEOF".data

/-- The read command string `` `cat "${path}"` ``. -/
def buildReadCommand (path : Str) : Str :=
  "cat \"".data ++ path ++ "\"".data

/-- `String.prototype.split('\n')` on a char-list string. -/
def splitLines (s : Str) : List Str :=
  match s with
  | [] => [[]]
  | c :: rest =>
    let tail := splitLines rest
    if c = '\n' then [] :: tail
    else
      match tail with
      | [] => [[c]]
      | l :: ls => (c :: l) :: ls

/-- Whether some line of the content equals the here-document delimiter `EOF`
(the claim's "delimiter-colliding sequence"). -/
def delimiterCollides (content : Str) : Bool :=
  (splitLines content).any (fun l => l = "EOF".data)

/-- Whether the content has an embedded null byte. -/
def hasNullByte (content : Str) : Bool :=
  content.any (fun c => c = Char.ofNat 0)

/-- Modelled from the spec: the remote shell is an external collaborator
(§1, §6) not present in this repository; per §4.5 the write is "a command that
streams the provided content into the target path using a delimited
here-document technique".  A quoted here-document `cat > "P" << 'EOF'` writes
every body line verbatim, each terminated by a newline, the body being
everything between the command line and the first `EOF` line — here the
escaped content, valid when no line of it equals the delimiter.  So the file
afterwards holds `escapedBody ++ "\n"`. -/
def fileContentAfterWrite (content : Str) : Str :=
  escapeQuotes content ++ ['\n']

/-- Modelled from the spec: per §4.5 the read issues `cat "P"`, whose stdout
is the file's bytes verbatim (exit 0 on success); `executeSSHReadFile` then
returns that captured stdout as the content.  Composition of the two tool
calls on the same path. -/
def writeThenRead (content : Str) : Str :=
  fileContentAfterWrite content

/-! ## Auxiliary observers and concrete scenario states -/

/-- Whether an `Except` settled successfully. -/
def exceptIsOk : Except SSHError α → Bool
  | Except.ok _ => true
  | Except.error _ => false

/-- The taxonomy code of a settled rejection, if the result is one. -/
def errCodeOf : Except SSHError α → Option ErrorCode
  | Except.ok _ => none
  | Except.error e => some e.code

/-- The taxonomy code of an optionally-settled rejection. -/
def errCodeOfOpt : Option (Except SSHError α) → Option ErrorCode
  | none => none
  | some r => errCodeOf r

/-- The identifier inside a successful connect result, if any. -/
def okInfoId : Except SSHError ConnInfo → Option Str
  | Except.ok info => some info.id
  | Except.error _ => none

/-- The exit code inside a successfully settled command result, if any. -/
def resultExitCode : Option (Except SSHError SSHCommandResult) → Option Int
  | some (Except.ok r) => some r.exitCode
  | _ => none

/-- A password-only auth input. -/
def pwAuth : SSHAuthConfig :=
  { password := some "pw".data, privateKey := none, passphrase := none, agent := none }

/-- A registry slot holding a connected session for the given endpoint,
keyed by its generated identifier. -/
def readyEntryAt (host : Str) (port : Nat) (username : Str) (client : Nat) :
    Str × ConnEntry :=
  (generateConnectionId host port username,
   ⟨client,
    { id := generateConnectionId host port username, host := host, port := port,
      username := username, isConnected := true, createdAt := 0, lastUsed := 0 }⟩)

/-- A registry already holding `config.maxConnections` (= 10) connected
sessions, to distinct endpoints `u@h:1000` … `u@h:1009`. -/
def fullRegistry : MgrState :=
  { connections :=
      (List.range config.maxConnections).map
        (fun i => readyEntryAt "h".data (1000 + i) "u".data i),
    nextClient := config.maxConnections }

/-- A registry holding exactly one connected session, `u@h:22`. -/
def oneReadyState : MgrState :=
  { connections := [readyEntryAt "h".data 22 "u".data 0], nextClient := 1 }

/-- A concrete command shape with the default 60-second timeout field. -/
def cmdA : SSHCommand :=
  { id := "c1".data, command := "whoami".data, cwd := none, timeout := some 60 }

/-- First connect of the repeated-connect scenario: fresh registry,
endpoint `u@h:22`, transport reports ready at time 0. -/
def repeatScenarioFirst : ConnectOutput :=
  connectStep emptyMgr "h".data 22 "u".data pwAuth none ConnectOutcome.ready 0

/-- The scenario's middle step: the first session is disconnected, leaving
the registry empty again. -/
def repeatScenarioAfterDisconnect : MgrState :=
  (disconnectStep repeatScenarioFirst.state "u@h:22".data).1

/-- Second connect of the scenario: same endpoint, a new physical session. -/
def repeatScenarioSecond : ConnectOutput :=
  connectStep repeatScenarioAfterDisconnect "h".data 22 "u".data pwAuth none
    ConnectOutcome.ready 1

/-- The physical session (the `Client` allocation number) the registry binds
to an identifier. -/
def sessionAt (st : MgrState) (connectionId : Str) : Option Nat :=
  (mapGet st.connections connectionId).map (fun e => e.connection)

/-! ## Helper lemmas -/

/-- A truthy optional string is present. -/
theorem optStrTruthy_isSome {o : Option Str} (h : optStrTruthy o = true) : o.isSome := by
  cases o <;> simp [optStrTruthy] at h ⊢

/-- C1 (code bug): the configured ceiling `config.maxConnections` is never
enforced.  With the registry already holding exactly `maxConnections` (= 10)
connected entries, a further connect that reaches `ready` succeeds and
registers an eleventh entry; no resource-exhaustion rejection exists (the
taxonomy `ErrorCode` has no capacity member at all).  This evaluates the code
at the claim's failing input. -/
theorem capacity_ceiling_never_enforced :
    fullRegistry.connections.length = config.maxConnections
    ∧ fullRegistry.connections.all (fun e => e.2.info.isConnected) = true
    ∧ exceptIsOk (connectStep fullRegistry "h".data 22 "u".data pwAuth none
        ConnectOutcome.ready 0).result = true
    ∧ (connectStep fullRegistry "h".data 22 "u".data pwAuth none
        ConnectOutcome.ready 0).state.connections.length = config.maxConnections + 1 := by
  decide

/-- C2 counterexample: connecting with no password, no key material and no
agent flag does NOT fail fast with `AUTHENTICATION_FAILED` before a network
attempt — `client.connect` is invoked anyway, and the subsequent transport
`error` event is mapped to `CONNECTION_FAILED`. -/
theorem no_auth_material_still_attempts_network :
    (connectStep emptyMgr "h".data 22 "u".data emptyAuth none
      (ConnectOutcome.fails "all configured authentication methods failed".data) 0).transportConnectCalled = true
    ∧ errCodeOf (connectStep emptyMgr "h".data 22 "u".data emptyAuth none
        (ConnectOutcome.fails "all configured authentication methods failed".data) 0).result
        = some ErrorCode.CONNECTION_FAILED
    ∧ errCodeOf (connectStep emptyMgr "h".data 22 "u".data emptyAuth none
        (ConnectOutcome.fails "all configured authentication methods failed".data) 0).result
        ≠ some ErrorCode.AUTHENTICATION_FAILED := by
  decide

/-- C2 amended: for every connect whose auth input carries no password, no
private-key material and no agent flag, the transport connect is still
attempted, with a configuration containing no authentication method, and no
outcome ever yields `AUTHENTICATION_FAILED`; failures surface only as the
transport-mapped `CONNECTION_FAILED` / `CONNECTION_TIMEOUT`. -/
theorem no_auth_material_no_fail_fast
    (st : MgrState) (host : Str) (port : Nat) (username : Str)
    (auth : SSHAuthConfig) (env : Option Str) (now : Nat)
    (hauth : hasAuthMaterial auth = false)
    (hfresh : mapGet st.connections (generateConnectionId host port username) = none) :
    ∀ outcome : ConnectOutcome,
      (connectStep st host port username auth env outcome now).transportConnectCalled = true
      ∧ (connectStep st host port username auth env outcome now).transportConfig
          = some { password := none, privateKey := none, passphrase := none, agent := none }
      ∧ errCodeOf (connectStep st host port username auth env outcome now).result
          ≠ some ErrorCode.AUTHENTICATION_FAILED := by
  simp only [hasAuthMaterial, Bool.or_eq_false_iff] at hauth
  obtain ⟨⟨h1, h2⟩, h3⟩ := hauth
  intro outcome
  cases outcome <;>
    simp [connectStep, hfresh, connectAttempt, buildConnectConfig, h1, h2, h3,
      errCodeOf, ErrorFactory.connectionFailed, ErrorFactory.connectionTimeout]

/-- Witness for the C2 amended theorem at a concrete empty-auth connect. -/
theorem no_auth_material_no_fail_fast_witness :
    (connectStep emptyMgr "h".data 22 "u".data emptyAuth none
      (ConnectOutcome.fails "x".data) 0).transportConnectCalled = true
    ∧ (connectStep emptyMgr "h".data 22 "u".data emptyAuth none
        (ConnectOutcome.fails "x".data) 0).transportConfig
        = some { password := none, privateKey := none, passphrase := none, agent := none }
    ∧ errCodeOf (connectStep emptyMgr "h".data 22 "u".data emptyAuth none
        (ConnectOutcome.fails "x".data) 0).result ≠ some ErrorCode.AUTHENTICATION_FAILED :=
  no_auth_material_no_fail_fast emptyMgr "h".data 22 "u".data emptyAuth none 0
    (by decide) (by decide) (ConnectOutcome.fails "x".data)

/-- C3 (confirmed): whenever a (truthy) password is present in the auth
input, the connect configuration handed to the transport carries password
authentication and nothing else — exactly one method is configured, and the
private key, passphrase and agent fields are all absent even when supplied,
following the precedence password > private key > agent. -/
theorem password_wins_auth_precedence (auth : SSHAuthConfig) (env : Option Str)
    (h : optStrTruthy auth.password = true) :
    buildConnectConfig auth env
      = { password := auth.password, privateKey := none, passphrase := none, agent := none }
    ∧ configuredMethodCount (buildConnectConfig auth env) = 1
    ∧ ∀ (host : Str) (port : Nat) (username : Str) (outcome : ConnectOutcome) (now : Nat),
        (connectStep emptyMgr host port username auth env outcome now).transportConfig
          = some (buildConnectConfig auth env) := by
  have hs : auth.password.isSome = true := optStrTruthy_isSome h
  refine ⟨by simp [buildConnectConfig, h], ?_, ?_⟩
  · simp [buildConnectConfig, h, configuredMethodCount, hs]
  · intro host port username outcome now
    cases outcome <;> simp [connectStep, emptyMgr, mapGet, connectAttempt]

/-- Witness for C3 with all three methods supplied at once. -/
theorem password_wins_auth_precedence_witness :
    buildConnectConfig
        { password := some "p".data, privateKey := some "k".data,
          passphrase := some "x".data, agent := some true } (some "sock".data)
      = { password := some "p".data, privateKey := none, passphrase := none, agent := none }
    ∧ configuredMethodCount (buildConnectConfig
        { password := some "p".data, privateKey := some "k".data,
          passphrase := some "x".data, agent := some true } (some "sock".data)) = 1 :=
  ⟨(password_wins_auth_precedence _ _ (by decide)).1,
   (password_wins_auth_precedence _ _ (by decide)).2.1⟩

/-- C4 counterexample: a stream `close` event delivering no exit status
(`null`/`undefined`, e.g. a signal-killed process) settles the command with
exit code 0 — the zero success code, not a sentinel NON-zero code as the
claim states. -/
theorem null_exit_status_becomes_zero :
    resultExitCode (executeCommand oneReadyState "u@h:22".data cmdA
        (ChannelOutcome.opened [ExecEvent.closed none]) 0 5).2 = some 0 := by
  decide

/-- C4 amended: once a command settles successfully (the `close` event), its
`exitCode` is always a defined integer, the normalization being `code || 0`:
an absent status becomes 0 (not a non-zero sentinel), and a present status is
kept as is. -/
theorem exit_code_defined_on_close (cmd : SSHCommand) (d : Nat) (out errOut : Str)
    (code : Option Int) (rest : List ExecEvent) :
    runStream cmd d (ExecEvent.closed code :: rest) out errOut
      = some (Except.ok { id := cmd.id, exitCode := jsOrZero code, stdout := out,
                          stderr := errOut, duration := d })
    ∧ jsOrZero none = 0 ∧ ∀ c : Int, jsOrZero (some c) = c := by
  refine ⟨rfl, rfl, ?_⟩
  intro c
  rcases eq_or_ne c 0 with hc | hc <;> simp [jsOrZero, hc]

/-- Quote-free content passes through the write escaping unchanged. -/
theorem escapeQuotes_eq_self : ∀ {content : Str}, singleQuoteChar ∉ content →
    escapeQuotes content = content := by
  intro content
  induction content with
  | nil => intro; rfl
  | cons c rest ih =>
    intro h
    have hc : c ≠ singleQuoteChar := by
      intro hc; exact h (by simp [hc])
    have hrest : singleQuoteChar ∉ rest := fun hm => h (by simp [hm])
    simp [escapeQuotes, hc, ih hrest]

/-- C6 counterexample: writing `"hello"` (no delimiter-colliding line, no
null byte) and reading it back yields `"hello\n"`, not `"hello"`: the
here-document always terminates the written content with a newline, so the
write/read round trip is not the identity. -/
theorem round_trip_not_identity :
    delimiterCollides "hello".data = false
    ∧ hasNullByte "hello".data = false
    ∧ writeThenRead "hello".data = "hello\n".data
    ∧ writeThenRead "hello".data ≠ "hello".data := by
  decide

/-- C6 amended: for content with no single quotes, no line equal to the
here-document delimiter `EOF`, and no embedded null bytes, write-then-read
returns the content with exactly one newline appended.  (Content containing
single quotes is further mangled by the escaping, which is ineffective inside
a quoted here-document.) -/
theorem write_read_round_trip_adds_newline (content : Str)
    (hq : singleQuoteChar ∉ content)
    (hd : delimiterCollides content = false)
    (hn : hasNullByte content = false) :
    writeThenRead content = content ++ ['\n'] := by
  simp [writeThenRead, fileContentAfterWrite, escapeQuotes_eq_self hq]

/-- Witness for the C6 amended round-trip at `"hello"`. -/
theorem write_read_round_trip_adds_newline_witness :
    writeThenRead "hello".data = "hello".data ++ ['\n'] :=
  write_read_round_trip_adds_newline "hello".data (by decide) (by decide) (by decide)

/-- C9 counterexample: identifiers carry no timestamp or random suffix.
Connecting to `u@h:22` (creating physical session 0), disconnecting, and
connecting again at a later time (creating physical session 1) issues the
SAME identifier `u@h:22` for two distinct physical sessions, refuting the
claimed distinctness. -/
theorem repeated_connect_same_identifier :
    okInfoId repeatScenarioFirst.result = some "u@h:22".data
    ∧ okInfoId repeatScenarioSecond.result = some "u@h:22".data
    ∧ sessionAt repeatScenarioFirst.state "u@h:22".data = some 0
    ∧ sessionAt repeatScenarioSecond.state "u@h:22".data = some 1 := by
  decide

/-- C10 (confirmed): connect is atomic with respect to the registry map.
An attempt settling with a transport `error` or `timeout` leaves the map
exactly as it was, returns the mapped typed error, and the attempted
identifier stays unregistered (so the later `close`-event `removeConnection`
is a no-op); only the `ready` event inserts the new entry. -/
theorem failed_connect_leaves_registry_unchanged
    (st : MgrState) (host : Str) (port : Nat) (username : Str)
    (auth : SSHAuthConfig) (env : Option Str) (m : Str) (now : Nat)
    (hfresh : mapGet st.connections (generateConnectionId host port username) = none) :
    (connectStep st host port username auth env (ConnectOutcome.fails m) now).state.connections
        = st.connections
    ∧ (connectStep st host port username auth env ConnectOutcome.timedOut now).state.connections
        = st.connections
    ∧ (connectStep st host port username auth env (ConnectOutcome.fails m) now).result
        = Except.error (ErrorFactory.connectionFailed host port)
    ∧ (connectStep st host port username auth env ConnectOutcome.timedOut now).result
        = Except.error (ErrorFactory.connectionTimeout host port 0)
    ∧ getConnection (connectStep st host port username auth env (ConnectOutcome.fails m) now).state
        (generateConnectionId host port username) = none
    ∧ removeConnection (connectStep st host port username auth env (ConnectOutcome.fails m) now).state
        (generateConnectionId host port username)
        = (connectStep st host port username auth env (ConnectOutcome.fails m) now).state
    ∧ (connectStep st host port username auth env ConnectOutcome.ready now).state.connections
        = mapSet st.connections (generateConnectionId host port username)
            ⟨st.nextClient,
             { id := generateConnectionId host port username, host := host, port := port,
               username := username, isConnected := true, createdAt := now, lastUsed := now }⟩ := by
  simp [connectStep, hfresh, connectAttempt, getConnection, removeConnection]

/-- Witness for C10 at a concrete failing connect on an empty registry. -/
theorem failed_connect_leaves_registry_unchanged_witness :
    (connectStep emptyMgr "h".data 22 "u".data pwAuth none
      (ConnectOutcome.fails "refused".data) 0).state.connections = emptyMgr.connections
    ∧ getConnection (connectStep emptyMgr "h".data 22 "u".data pwAuth none
        (ConnectOutcome.fails "refused".data) 0).state
        (generateConnectionId "h".data 22 "u".data) = none :=
  ⟨(failed_connect_leaves_registry_unchanged emptyMgr "h".data 22 "u".data pwAuth none
      "refused".data 0 (by decide)).1,
   (failed_connect_leaves_registry_unchanged emptyMgr "h".data 22 "u".data pwAuth none
      "refused".data 0 (by decide)).2.2.2.2.1⟩

/-- The stream handlers never read `command.timeout`. -/
theorem runStream_ignores_timeout (cmd : SSHCommand) (tv : Option Nat) (d : Nat) :
    ∀ (events : List ExecEvent) (out errOut : Str),
      runStream { cmd with timeout := tv } d events out errOut
        = runStream cmd d events out errOut := by
  intro events
  induction events with
  | nil => intro out errOut; rfl
  | cons e rest ih =>
    intro out errOut
    cases e <;> simp [runStream, ih]

/-- No stream outcome produces a `COMMAND_TIMEOUT` error. -/
theorem runStream_never_timeout_code (cmd : SSHCommand) (d : Nat) :
    ∀ (events : List ExecEvent) (out errOut : Str),
      errCodeOfOpt (runStream cmd d events out errOut) ≠ some ErrorCode.COMMAND_TIMEOUT := by
  intro events
  induction events with
  | nil => intro out errOut; simp [runStream, errCodeOfOpt]
  | cons e rest ih =>
    intro out errOut
    cases e with
    | stdoutData chunk => simpa [runStream] using ih (out ++ chunk) errOut
    | stderrData chunk => simpa [runStream] using ih out (errOut ++ chunk)
    | closed code => simp [runStream, errCodeOfOpt, errCodeOf]
    | streamFailed msg =>
      simp [runStream, errCodeOfOpt, errCodeOf, ErrorFactory.commandFailed]

/-- C5 (code bug): `executeCommand` has no timer.  Its result is independent
of `command.timeout`, it never produces a `COMMAND_TIMEOUT` error for any
channel outcome (`ErrorFactory.commandTimeout` is dead code), and a command
whose stream never closes leaves the call pending forever rather than
settling — evaluated concretely at a 1-second-timeout command whose channel
delivers output but never closes. -/
theorem command_timeout_never_enforced :
    (∀ (st : MgrState) (cid : Str) (cmd : SSHCommand) (outcome : ChannelOutcome)
        (t1 t2 : Nat) (tv : Option Nat),
        executeCommand st cid { cmd with timeout := tv } outcome t1 t2
          = executeCommand st cid cmd outcome t1 t2)
    ∧ (∀ (st : MgrState) (cid : Str) (cmd : SSHCommand) (outcome : ChannelOutcome)
        (t1 t2 : Nat),
        errCodeOfOpt (executeCommand st cid cmd outcome t1 t2).2
          ≠ some ErrorCode.COMMAND_TIMEOUT)
    ∧ (executeCommand oneReadyState "u@h:22".data
         { id := "c2".data, command := "sleep 999".data, cwd := none, timeout := some 1 }
         (ChannelOutcome.opened [ExecEvent.stdoutData "partial".data]) 0 1000000).2 = none := by
  refine ⟨?_, ?_, rfl⟩
  · intro st cid cmd outcome t1 t2 tv
    cases hm : mapGet st.connections cid with
    | none => simp [executeCommand, hm]
    | some conn =>
      cases outcome with
      | openFailed msg => simp [executeCommand, hm]
      | opened events =>
        simp [executeCommand, hm, runStream_ignores_timeout]
  · intro st cid cmd outcome t1 t2
    cases hm : mapGet st.connections cid with
    | none =>
      simp [executeCommand, hm, errCodeOfOpt, errCodeOf, ErrorFactory.connectionNotFound]
    | some conn =>
      cases hc : conn.info.isConnected with
      | false =>
        simp [executeCommand, hm, hc, errCodeOfOpt, errCodeOf, ErrorFactory.connectionFailed]
      | true =>
        cases outcome with
        | openFailed msg =>
          simp [executeCommand, hm, hc, errCodeOfOpt, errCodeOf, ErrorFactory.commandFailed]
        | opened events =>
          have h := runStream_never_timeout_code cmd (t2 - t1) events [] []
          cases hr : runStream cmd (t2 - t1) events [] [] with
          | none => simp [executeCommand, hm, hc, hr, errCodeOfOpt]
          | some r =>
            cases r with
            | ok res => simp [executeCommand, hm, hc, hr, errCodeOfOpt, errCodeOf]
            | error e =>
              rw [hr] at h
              simp [executeCommand, hm, hc, hr, errCodeOfOpt]
              simpa [errCodeOfOpt] using h

/-- Soundness of `splitAtBrace`: it splits at a brace actually present. -/
theorem splitAtBrace_eq : ∀ {s name r : Str}, splitAtBrace s = some (name, r) →
    s = name ++ '}' :: r := by
  intro s
  induction s with
  | nil => intro name r h; simp [splitAtBrace] at h
  | cons c rest ih =>
    intro name r h
    by_cases hc : c = '}'
    · subst hc
      simp [splitAtBrace] at h
      obtain ⟨h1, h2⟩ := h
      subst h1; subst h2
      rfl
    · rw [splitAtBrace, if_neg hc] at h
      cases hs : splitAtBrace rest with
      | none =>
        rw [hs] at h
        exact absurd h (by simp)
      | some p =>
        rw [hs] at h
        simp only [Option.map_some', Option.some.injEq, Prod.mk.injEq] at h
        obtain ⟨h1, h2⟩ := h
        rw [← h1, ← h2]
        simpa using ih hs

/-- Completeness of `splitAtBrace` on a brace-free prefix. -/
theorem splitAtBrace_of_append : ∀ {name : Str} (r : Str), '}' ∉ name →
    splitAtBrace (name ++ '}' :: r) = some (name, r) := by
  intro name
  induction name with
  | nil => intro r _; simp [splitAtBrace]
  | cons c rest ih =>
    intro r h
    have hc : c ≠ '}' := by intro hc; exact h (by simp [hc])
    have hrest : '}' ∉ rest := fun hm => h (by simp [hm])
    simp [splitAtBrace, hc, ih r hrest]

/-- Soundness of `tokenSplit`: a match is a well-formed non-empty token. -/
theorem tokenSplit_some_eq : ∀ {s name rest2 : Str}, tokenSplit s = some (name, rest2) →
    s = '$' :: '{' :: name ++ '}' :: rest2 ∧ name ≠ [] := by
  intro s name rest2 h
  match s with
  | [] => simp [tokenSplit] at h
  | [c1] => simp [tokenSplit] at h
  | c1 :: c2 :: rest =>
    rw [tokenSplit] at h
    by_cases h12 : c1 = '$' ∧ c2 = '{'
    · rw [if_pos h12] at h
      obtain ⟨hd, hb⟩ := h12
      subst hd; subst hb
      cases hs : splitAtBrace rest with
      | none => rw [hs] at h; simp at h
      | some p =>
        obtain ⟨p1, p2⟩ := p
        rw [hs] at h
        by_cases he : p1.isEmpty
        · rw [show (match some (p1, p2) with
              | some (name, rest2) =>
                if List.isEmpty name = true then none else some (name, rest2)
              | none => none) = (none : Option (Str × Str)) by simp [he]] at h
          simp at h
        · rw [show (match some (p1, p2) with
              | some (name, rest2) =>
                if List.isEmpty name = true then none else some (name, rest2)
              | none => none) = some (p1, p2) by simp [he]] at h
          simp only [Option.some.injEq, Prod.mk.injEq] at h
          obtain ⟨h1, h2⟩ := h
          subst h1; subst h2
          have heq := splitAtBrace_eq hs
          constructor
          · rw [heq]
            rfl
          · simpa [List.isEmpty_iff] using he

    · rw [if_neg h12] at h
      simp at h

/-- `tokenSplit` recognises a well-formed token at the head. -/
theorem tokenSplit_token {name : Str} (suffix : Str) (h1 : name ≠ []) (h2 : '}' ∉ name) :
    tokenSplit ('$' :: '{' :: (name ++ '}' :: suffix)) = some (name, suffix) := by
  rw [tokenSplit]
  rw [if_pos ⟨rfl, rfl⟩]
  rw [splitAtBrace_of_append suffix h2]
  simp [List.isEmpty_iff, h1]

/-- A token match strictly shrinks the remainder. -/
theorem tokenSplit_length {s name rest2 : Str} (h : tokenSplit s = some (name, rest2)) :
    rest2.length + 4 ≤ s.length := by
  obtain ⟨heq, hne⟩ := tokenSplit_some_eq h
  have : 1 ≤ name.length := by
    cases name with
    | nil => exact absurd rfl hne
    | cons a b => simp
  rw [heq]
  simp [List.length_append]
  omega

/-- Any fuel at least the input length computes the same scan. -/
theorem expandVarsAux_fuel_irrel (store : List (Str × Str)) :
    ∀ f1 f2 s, s.length ≤ f1 → s.length ≤ f2 →
      expandVarsAux store f1 s = expandVarsAux store f2 s := by
  intro f1
  induction f1 with
  | zero =>
    intro f2 s h1 _
    have : s = [] := List.length_eq_zero.mp (Nat.le_zero.mp h1)
    subst this
    cases f2 <;> rfl
  | succ a ih =>
    intro f2 s h1 h2
    cases s with
    | nil => cases f2 <;> rfl
    | cons c rest =>
      cases f2 with
      | zero => simp at h2
      | succ b =>
        cases ht : tokenSplit (c :: rest) with
        | none =>
          have hr : expandVarsAux store a rest = expandVarsAux store b rest :=
            ih b rest (by simpa using Nat.le_of_succ_le_succ h1)
              (by simpa using Nat.le_of_succ_le_succ h2)
          simp [expandVarsAux, ht, hr]
        | some p =>
          obtain ⟨name, rest2⟩ := p
          have hlen := tokenSplit_length ht
          have hla : rest2.length ≤ a := by
            have h1' := h1
            simp at hlen h1' ⊢
            omega
          have hlb : rest2.length ≤ b := by
            have h2' := h2
            simp at hlen h2' ⊢
            omega
          have hr : expandVarsAux store a rest2 = expandVarsAux store b rest2 :=
            ih b rest2 hla hlb
          cases hm : mapGet store name with
          | none => simp [expandVarsAux, ht, hm, hr]
          | some v =>
            cases v with
            | nil => simp [expandVarsAux, ht, hm, hr]
            | cons vh vt => simp [expandVarsAux, ht, hm, hr]

/-- A scan over a string whose every token is unresolvable is the
identity: unresolved tokens are kept verbatim and everything else copied. -/
theorem expandVarsAux_of_unresolved (store : List (Str × Str)) :
    ∀ fuel s, s.length ≤ fuel → allTokensUnresolvedAux store fuel s = true →
      expandVarsAux store fuel s = s := by
  intro fuel
  induction fuel with
  | zero => intro s _ _; rfl
  | succ fuel ih =>
    intro s h1 h2
    cases s with
    | nil => rfl
    | cons c rest =>
      cases ht : tokenSplit (c :: rest) with
      | none =>
        have h2' : allTokensUnresolvedAux store fuel rest = true := by
          simpa [allTokensUnresolvedAux, ht] using h2
        have hr := ih rest (by simpa using Nat.le_of_succ_le_succ h1) h2'
        simp [expandVarsAux, ht, hr]
      | some p =>
        obtain ⟨name, rest2⟩ := p
        obtain ⟨hs, _⟩ := tokenSplit_some_eq ht
        have hlen := tokenSplit_length ht
        have hl2 : rest2.length ≤ fuel := by
          have h1' := h1
          simp at hlen h1' ⊢
          omega
        cases hm : mapGet store name with
        | some v =>
          exfalso
          have : allTokensUnresolvedAux store (fuel + 1) (c :: rest) = false := by
            simp [allTokensUnresolvedAux, ht, hm]
          rw [this] at h2
          exact Bool.false_ne_true h2
        | none =>
          have h2' : allTokensUnresolvedAux store fuel rest2 = true := by
            simpa [allTokensUnresolvedAux, ht, hm] using h2
          have hr := ih rest2 hl2 h2'
          simp only [expandVarsAux, ht, hm, hr]
          rw [hs]

/-- C7 (confirmed): the resolver is a total function (never throws) and for
a well-formed `${name}` token: a name absent from the store leaves the
literal token in place unchanged, and a name bound to the empty string is
replaced by the empty string, scanning continuing after the token in both
cases. -/
theorem expand_token_policy (store : List (Str × Str)) (name suffix : Str)
    (h1 : name ≠ []) (h2 : '}' ∉ name) :
    (mapGet store name = none →
      expandVariables true store ('$' :: '{' :: (name ++ '}' :: suffix))
        = '$' :: '{' :: (name ++ '}' :: expandVariables true store suffix))
    ∧ (mapGet store name = some [] →
      expandVariables true store ('$' :: '{' :: (name ++ '}' :: suffix))
        = expandVariables true store suffix) := by
  have ht := tokenSplit_token suffix h1 h2
  have hfi : expandVarsAux store ((name ++ '}' :: suffix).length + 1) suffix
      = expandVarsAux store suffix.length suffix := by
    apply expandVarsAux_fuel_irrel
    · simp [List.length_append]
      omega
    · exact le_rfl
  constructor <;> intro hm <;>
    simp only [expandVariables, if_true, List.length_cons, expandVarsAux, ht, hm] <;>
    rw [hfi] <;> simp [List.cons_append]

/-- Witness for C7: an empty-valued token vanishes, an absent one stays. -/
theorem expand_token_policy_witness :
    expandVariables true [("E".data, [])] ('$' :: '{' :: ("E".data ++ '}' :: "z".data))
      = expandVariables true [("E".data, [])] "z".data
    ∧ expandVariables true [] ('$' :: '{' :: ("A".data ++ '}' :: "z".data))
      = '$' :: '{' :: ("A".data ++ '}' :: expandVariables true [] "z".data) :=
  ⟨(expand_token_policy [("E".data, [])] "E".data "z".data (by decide) (by decide)).2
      (by decide),
   (expand_token_policy [] "A".data "z".data (by decide) (by decide)).1 (by decide)⟩

/-- C8 counterexample: expansion is NOT idempotent in general.  With the
store `A ↦ "${B}", B ↦ "x"`, expanding the structured input `"${A}"` once
gives `"${B}"` (substituted values are not re-scanned), but expanding twice
gives `"x"`. -/
theorem expand_twice_differs :
    jsStrOf (expandObjectVariables true [("A".data, "${B}".data), ("B".data, "x".data)]
        (expandObjectVariables true [("A".data, "${B}".data), ("B".data, "x".data)]
          (JSValue.str "${A}".data))) = some "x".data
    ∧ jsStrOf (expandObjectVariables true [("A".data, "${B}".data), ("B".data, "x".data)]
        (JSValue.str "${A}".data)) = some "${B}".data
    ∧ some "x".data ≠ some "${B}".data := by
  refine ⟨by decide, by decide, by decide⟩

/-- C8 amended: expansion is idempotent whenever the first pass's output
contains only unresolvable tokens — in particular when it contains no tokens
at all: a second pass preserves unresolved tokens verbatim and is the
identity.  (In general a substituted value may itself contain a resolvable
token, which a second pass would expand.) -/
theorem expand_idempotent_when_unresolved (store : List (Str × Str)) (s : Str)
    (h : allTokensUnresolved store (expandVariables true store s) = true) :
    expandVariables true store (expandVariables true store s)
      = expandVariables true store s := by
  have h2 := expandVarsAux_of_unresolved store (expandVariables true store s).length
      (expandVariables true store s) le_rfl h
  simpa [expandVariables] using h2

/-- Witness for C8 amended: one resolvable and one unresolvable token. -/
theorem expand_idempotent_when_unresolved_witness :
    expandVariables true [("A".data, "x".data)]
        (expandVariables true [("A".data, "x".data)] "${A}y${C}".data)
      = expandVariables true [("A".data, "x".data)] "${A}y${C}".data :=
  expand_idempotent_when_unresolved [("A".data, "x".data)] "${A}y${C}".data (by decide)

/-- Digit characters are never an underscore. -/
theorem digitChar_ne_underscore : ∀ n : Nat, Nat.digitChar n ≠ '_' := by
  intro n
  rcases Nat.lt_or_ge n 16 with h | h
  · interval_cases n <;> decide
  · obtain ⟨k, rfl⟩ : ∃ k, n = k + 16 := ⟨n - 16, by omega⟩
    simp +arith [Nat.digitChar]

/-- Decimal renderings contain no underscore. -/
theorem natToDecAux_no_underscore : ∀ fuel n, '_' ∉ natToDecAux fuel n := by
  intro fuel
  induction fuel with
  | zero => intro n; simp [natToDecAux]
  | succ fuel ih =>
    intro n
    by_cases h : n < 10
    · simp only [natToDecAux, if_pos h, List.mem_singleton]
      intro hmem
      exact digitChar_ne_underscore n hmem.symm
    · simp only [natToDecAux, if_neg h]
      intro hmem
      rcases List.mem_append.mp hmem with hl | hr
      · exact ih (n / 10) hl
      · rw [List.mem_singleton] at hr
        exact digitChar_ne_underscore (n % 10) hr.symm

/-- Decimal renderings contain no underscore (top level). -/
theorem natToDec_no_underscore (n : Nat) : '_' ∉ natToDec n :=
  natToDecAux_no_underscore (n + 1) n

/-- Splitting at a separator absent from both prefixes is injective. -/
theorem append_sep_inj {c : Char} : ∀ (a b x y : Str), c ∉ a → c ∉ b →
    a ++ c :: x = b ++ c :: y → a = b ∧ x = y := by
  intro a
  induction a with
  | nil =>
    intro b x y _ hb h
    cases b with
    | nil => simpa using h
    | cons d bs =>
      simp only [List.nil_append, List.cons_append, List.cons.injEq] at h
      exact absurd (h.1 ▸ List.mem_cons_self d bs) hb
  | cons e as ih =>
    intro b x y ha hb h
    cases b with
    | nil =>
      simp only [List.nil_append, List.cons_append, List.cons.injEq] at h
      exact absurd (h.1 ▸ List.mem_cons_self e as) ha
    | cons d bs =>
      simp only [List.cons_append, List.cons.injEq] at h
      obtain ⟨hed, hrest⟩ := h
      have ha' : c ∉ as := fun hm => ha (List.mem_cons_of_mem e hm)
      have hb' : c ∉ bs := fun hm => hb (List.mem_cons_of_mem d hm)
      obtain ⟨h1, h2⟩ := ih bs x y ha' hb' hrest
      exact ⟨by rw [hed, h1], h2⟩

/-- Identifiers of the duplicate manager variant are distinct whenever the
rendered timestamp or the random suffix differs. -/
theorem v2_ids_distinct (host : Str) (port : Nat) (username : Str)
    (t t' : Nat) (r r' : Str)
    (hd : natToDec t ≠ natToDec t' ∨ r ≠ r') :
    generateConnectionIdV2 host port username t r
      ≠ generateConnectionIdV2 host port username t' r' := by
  intro heq
  unfold generateConnectionIdV2 at heq
  rw [List.append_assoc, List.append_assoc] at heq
  have h1 := List.append_cancel_left heq
  simp only [List.cons_append, List.cons.injEq, List.nil_append] at h1
  have h2 : natToDec t ++ '_' :: r = natToDec t' ++ '_' :: r' := by
    simpa using h1
  obtain ⟨h3, h4⟩ := append_sep_inj (natToDec t) (natToDec t') r r'
    (natToDec_no_underscore t) (natToDec_no_underscore t') h2
  rcases hd with hd | hd
  · exact hd h3
  · exact hd h4

/-- C9 amended: in the manager in use, the identifier is derived from
username/host/port only, with no timestamp or random component; while an
entry for that identifier exists in the registry (such entries are
connected), a further connect returns exactly the registered session and
changes nothing — the identifier is never rebound to a different physical
session while registered.  The repository's duplicate manager variant appends
`_timestamp_random`, and its identifiers are distinct whenever the rendered
timestamp or random suffix differs. -/
theorem identifier_stable_while_registered
    (st : MgrState) (host : Str) (port : Nat) (username : Str)
    (auth : SSHAuthConfig) (env : Option Str) (outcome : ConnectOutcome) (now : Nat)
    (e : ConnEntry)
    (h1 : mapGet st.connections (generateConnectionId host port username) = some e)
    (h2 : e.info.isConnected = true) :
    connectStep st host port username auth env outcome now
      = { state := st, result := Except.ok e.info,
          transportConnectCalled := false, transportConfig := none }
    ∧ ∀ (t t' : Nat) (r r' : Str), natToDec t ≠ natToDec t' ∨ r ≠ r' →
        generateConnectionIdV2 host port username t r
          ≠ generateConnectionIdV2 host port username t' r' := by
  constructor
  · simp [connectStep, h1, h2]
  · exact fun t t' r r' hd => v2_ids_distinct host port username t t' r r' hd

/-- Witness for C9 amended on a one-entry registry and concrete V2 ids. -/
theorem identifier_stable_while_registered_witness :
    connectStep oneReadyState "h".data 22 "u".data pwAuth none
        (ConnectOutcome.fails "boom".data) 7
      = { state := oneReadyState, result := Except.ok (readyEntryAt "h".data 22 "u".data 0).2.info,
          transportConnectCalled := false, transportConfig := none }
    ∧ generateConnectionIdV2 "h".data 22 "u".data 100 "abc123".data
        ≠ generateConnectionIdV2 "h".data 22 "u".data 101 "abc123".data :=
  ⟨(identifier_stable_while_registered oneReadyState "h".data 22 "u".data pwAuth none
      (ConnectOutcome.fails "boom".data) 7 (readyEntryAt "h".data 22 "u".data 0).2
      (by decide) (by decide)).1,
   (identifier_stable_while_registered oneReadyState "h".data 22 "u".data pwAuth none
      (ConnectOutcome.fails "boom".data) 7 (readyEntryAt "h".data 22 "u".data 0).2
      (by decide) (by decide)).2 100 101 "abc123".data "abc123".data
      (Or.inl (by decide))⟩
